import Mathlib

/-!
Entrypoint shim: probe-override proxy and child supervisor.

A shallow embedding of the Go sources

* `MetaplaySDK/entrypoint/health_probe_proxy/health_probe_proxy.go`
* `MetaplaySDK/entrypoint/supervisor/supervisor_linux.go`
* `MetaplaySDK/entrypoint/main.go`

Stateful code becomes explicit state passing.  Each method that takes the
record mutex is one atomic function on the record.  Log output is not part of
the model; HTTP responses, exit codes, signals sent and processes started are.
-/

namespace HealthProbeProxy

/-! ## `time` package: instants and durations -/

/-- An instant (`time.Time`), as nanoseconds elapsed since the zero `time.Time`
(January 1, year 1, 00:00 UTC).  One time line is used for every reading. -/
abbrev Time := Int

/-- A `time.Duration`: a signed 64-bit count of nanoseconds. -/
abbrev Duration := Int

/-- The value `time.Time{}`. -/
def zeroTime : Time := 0

/-- Smallest `time.Duration` (`-1 << 63`). -/
def minDuration : Duration := -(2 ^ 63)

/-- Largest `time.Duration` (`1<<63 - 1`). -/
def maxDuration : Duration := 2 ^ 63 - 1

/-- Constant `time.Second`. -/
def Second : Duration := 1000000000

/-- Constant `time.Minute`. -/
def Minute : Duration := 60 * Second

/-- Method `t.Add(d)`. -/
def Time.Add (t : Time) (d : Duration) : Time := t + d

/-- Method `t.After(u)`: reports whether `t` is strictly later than `u`. -/
def Time.After (t u : Time) : Bool := decide (u < t)

/-- Method `t.Sub(u)`: the duration `t - u`, saturated to the range of
`time.Duration` as the library documents. -/
def Time.Sub (t u : Time) : Duration :=
  if t - u < minDuration then minDuration
  else if maxDuration < t - u then maxDuration
  else t - u

/-! ## Override records -/

/-- The type `OverrideMode` with its three constants. -/
inductive OverrideMode where
  | Passthrough
  | ForceSuccess
  | ForceFailure
  deriving DecidableEq

/-- The struct `OverrideState` without its mutex. -/
structure OverrideState where
  mode : OverrideMode
  expireAt : Time
  deriving DecidableEq

/-- The value `&OverrideState{}` both records start with. -/
def OverrideState.initial : OverrideState := ⟨OverrideMode.Passthrough, zeroTime⟩

/-- Method `SetOverride`; `now` is the reading of `time.Now()`. -/
def OverrideState.SetOverride (_o : OverrideState) (now : Time) (mode : OverrideMode) :
    OverrideState :=
  { mode := mode, expireAt := Time.Add now (30 * Minute) }

/-- What `GetState` leaves behind and returns. -/
structure GetStateResult where
  record : OverrideState
  mode : OverrideMode
  expiresIn : Duration
  deriving DecidableEq

/-- Method `GetState`.  `now` is the first reading of `time.Now()` (kept in the
local variable), `now2` the second reading, made inside the expiry test. -/
def OverrideState.GetState (o : OverrideState) (now now2 : Time) : GetStateResult :=
  let o1 : OverrideState :=
    if o.mode ≠ OverrideMode.Passthrough ∧ Time.After now2 o.expireAt = true then
      { mode := OverrideMode.Passthrough, expireAt := zeroTime }
    else o
  { record := o1, mode := o1.mode, expiresIn := Time.Sub o1.expireAt now }

/-! ## `float64` arithmetic used by `Duration.Minutes` and `Duration.Seconds`

A finite `float64` is represented by the rational number it denotes.  Every
operation below is correctly rounded (IEEE 754, round to nearest, ties to
even).  The values that occur in `Minutes` and `Seconds` of a 64-bit duration
lie between `1e-11` and `1e10` in magnitude or are zero, far inside the normal
exponent range, so the exponent is left unbounded. -/

/-- Nearest integer to `q`, a tie going to the even neighbour. -/
def roundHalfEven (q : ℚ) : ℤ :=
  let f : ℤ := ⌊q⌋
  if q - f < 1 / 2 then f
  else if 1 / 2 < q - f then f + 1
  else if f % 2 = 0 then f
  else f + 1

/-- Rounding of an exact value to the nearest `float64` (53-bit significand):
with `2^e ≤ |x| < 2^(e+1)` the result is the nearest multiple of `2^(e-52)`. -/
def float64Round (x : ℚ) : ℚ :=
  if x = 0 then 0
  else
    let e : ℤ := Int.log 2 |x|
    (roundHalfEven (x * (2 : ℚ) ^ (52 - e)) : ℚ) * (2 : ℚ) ^ (e - 52)

/-- Conversion `float64(n)` of an integer. -/
def float64OfInt (n : Int) : ℚ := float64Round (n : ℚ)

/-- Conversion `int(f)` of a `float64`: the fraction is discarded (truncation
toward zero). -/
def truncToInt (f : ℚ) : Int := if 0 ≤ f then ⌊f⌋ else ⌈f⌉

/-- Method `d.Seconds()`:
`float64(d / Second) + float64(d % Second) / 1e9`. -/
def Duration.Seconds (d : Duration) : ℚ :=
  float64Round
    (float64OfInt (d.tdiv Second) + float64Round (float64OfInt (d.tmod Second) / 1000000000))

/-- Method `d.Minutes()`:
`float64(d / Minute) + float64(d % Minute) / (60 * 1e9)`. -/
def Duration.Minutes (d : Duration) : ℚ :=
  float64Round
    (float64OfInt (d.tdiv Minute) + float64Round (float64OfInt (d.tmod Minute) / 60000000000))

/-- Function `formatDuration`; `%d` prints a decimal integer. -/
def formatDuration (d : Duration) : String :=
  let minutes : Int := truncToInt (Duration.Minutes d)
  let seconds : Int := (truncToInt (Duration.Seconds d)).tmod 60
  if minutes > 0 then
    toString minutes ++ "m " ++ toString seconds ++ "s"
  else
    toString seconds ++ "s"

/-! ## HTTP plumbing -/

/-- Header fields of a request. -/
abbrev Header := List (String × String)

/-- The parts of `*http.Request` the handlers read: `URL.Path`, the parsed
query `URL.Query()` in order of appearance, and `Header`. -/
structure Request where
  Path : String
  Query : List (String × String)
  Header : Header
  deriving DecidableEq

/-- Method `Get` of `url.Values`: the first value of `key`, or the empty string
when the key is absent. -/
def queryGet : List (String × String) → String → String
  | [], _ => ""
  | (k, v) :: rest, key => if k = key then v else queryGet rest key

/-- An `http.ResponseWriter` of the `net/http` server as a recorder: the status
code of the response (`none` while no header has been written) and the body
written so far.  Interim `1xx` responses are not recorded. -/
structure ResponseWriter where
  status : Option Nat
  body : String
  deriving DecidableEq

/-- A fresh response. -/
def ResponseWriter.fresh : ResponseWriter := ⟨none, ""⟩

/-- Function `checkWriteHeaderCode` of `net/http`: the value of the panic for a
code below 100 or above 999, `none` for the other codes. -/
def checkWriteHeaderCode (code : Nat) : Option String :=
  if code < 100 ∨ code > 999 then some ("invalid WriteHeader code " ++ toString code)
  else none

/-- Function `bodyAllowedForStatus` of `net/http`: no body goes with a `1xx`,
`204` or `304` status. -/
def bodyAllowedForStatus (status : Nat) : Bool :=
  if 100 ≤ status ∧ status ≤ 199 then false
  else if status = 204 then false
  else if status = 304 then false
  else true

/-- Method `WriteHeader`.  A call after the header was written does nothing; a
code outside 100..999 panics (`Except.error` carries the panic value); a `1xx`
code other than 101 sends an interim response and leaves the status open; any
other code becomes the status of the response. -/
def ResponseWriter.WriteHeader (w : ResponseWriter) (code : Nat) :
    Except String ResponseWriter :=
  match w.status with
  | some _ => Except.ok w
  | none =>
    match checkWriteHeaderCode code with
    | some v => Except.error v
    | none =>
      if 100 ≤ code ∧ code ≤ 199 ∧ code ≠ 101 then Except.ok w
      else Except.ok { w with status := some code }

/-- Method `Write` (also `fmt.Fprintf(w, ...)`): status 200 is sent first when no
header was written yet; the data is appended to the body when the status allows
a body and is dropped otherwise (the error returned for that is ignored by every
caller here). -/
def ResponseWriter.Write (w : ResponseWriter) (data : String) : ResponseWriter :=
  match w.status with
  | none => { status := some 200, body := w.body ++ data }
  | some code =>
    if bodyAllowedForStatus code = true then { w with body := w.body ++ data } else w

/-- Function `http.Error`: writes the status code, then the message and a
newline. -/
def httpError (w : ResponseWriter) (error : String) (code : Nat) :
    Except String ResponseWriter :=
  match ResponseWriter.WriteHeader w code with
  | Except.error v => Except.error v
  | Except.ok w1 => Except.ok (ResponseWriter.Write w1 (error ++ "\n"))

/-- Constant `http.StatusOK`. -/
def StatusOK : Nat := 200

/-- Constant `http.StatusBadRequest`. -/
def StatusBadRequest : Nat := 400

/-- Constant `http.StatusNotFound`. -/
def StatusNotFound : Nat := 404

/-- Constant `http.StatusInternalServerError`. -/
def StatusInternalServerError : Nat := 500

/-- Constant `targetBaseUrl`. -/
def targetBaseUrl : String := "http://127.0.0.1:8888"

/-! ## Probe handler -/

/-- A request sent by the HTTP client. -/
structure Outbound where
  method : String
  url : String
  header : Header
  deriving DecidableEq

/-- What the transport hands back for one request sent upstream: an error (with
the text of the error `client.Do` then returns), or the response that ends the
exchange, with its status code, its `Location` header (empty when absent) and
the outcome of reading its body to the end with `io.ReadAll` (the text of the
error, or the body). -/
inductive Reply where
  | error (err : String)
  | response (status : Nat) (location : String) (body : Except String String)

/-- The world outside the handler as its upstream `GET` meets it.
`newRequest url` is the error of `http.NewRequest("GET", url, nil)`, if any.
`send n req` is the answer to the request `req`, the `n`-th (from 0) that one call
of `client.Do` sends.  `resolve url loc` is `req.URL.Parse(loc)` for a request to
`url`: the target of a redirect, or the text of the error `client.Do` returns.
`hopHeader first prev url` is the header the client gives the request that
follows a redirect to `url` (copied from the first request, with `Referer` set
from the previous one). -/
structure Upstream where
  newRequest : String → Option String
  send : Nat → Outbound → Reply
  resolve : String → String → Except String String
  hopHeader : Outbound → Outbound → String → Header

/-- An upstream that answers every request with status `status`, no `Location`
header and body `body`. -/
def Upstream.response (status : Nat) (body : String) : Upstream :=
  { newRequest := fun _ => none,
    send := fun _ _ => Reply.response status "" (Except.ok body),
    resolve := fun _ loc => Except.ok loc,
    hopHeader := fun first _ _ => first.header }

/-- Function `redirectBehavior` of `net/http` for a `GET` without a body: the
status codes the client follows. -/
def shouldRedirect (status : Nat) : Bool :=
  status = 301 || status = 302 || status = 303 || status = 307 || status = 308

/-- The verb `%q` on text that needs no escaping. -/
def quote (s : String) : String := "\x22" ++ s ++ "\x22"

/-- What `client.Do` returns and the requests it sent to get there. -/
structure DoResult where
  resp : Except String (Nat × Except String String)
  sent : List Outbound

/-- The loop of `client.Do` of the zero-value `http.Client`, from the `n`-th
request `req` on, with `fuel` further requests allowed after this one.  The
request is sent; an error ends the call; a response that is no redirect, or a
redirect without `Location`, is returned; otherwise the target is resolved and,
unless 10 requests were sent already (`defaultCheckRedirect`), a `GET` to the
target is the next request. -/
def clientDoFrom (up : Upstream) (first : Outbound) : Nat → Nat → Outbound → DoResult
  | fuel, n, req =>
    match up.send n req with
    | Reply.error err => { resp := Except.error err, sent := [req] }
    | Reply.response status loc body =>
      if shouldRedirect status = false then { resp := Except.ok (status, body), sent := [req] }
      else if loc = "" then { resp := Except.ok (status, body), sent := [req] }
      else
        match up.resolve req.url loc with
        | Except.error err => { resp := Except.error err, sent := [req] }
        | Except.ok url =>
          match fuel with
          | 0 =>
            { resp := Except.error ("Get " ++ quote loc ++ ": stopped after 10 redirects"),
              sent := [req] }
          | fuel1 + 1 =>
            let next : Outbound := ⟨"GET", url, up.hopHeader first req url⟩
            let rest := clientDoFrom up first fuel1 (n + 1) next
            { resp := rest.resp, sent := req :: rest.sent }

/-- Method `Do` of the zero-value `http.Client`: at most 10 requests. -/
def clientDo (up : Upstream) (req : Outbound) : DoResult :=
  clientDoFrom up req 9 0 req

/-- Everything one run of a probe handler does: the record as `GetState` left
it, the response, the requests sent upstream, and the value of the panic that
aborted the handler, if one did (the server then logs it and closes the
connection). -/
structure ProbeResult where
  override : OverrideState
  w : ResponseWriter
  sent : List Outbound
  panic : Option String
  deriving DecidableEq

/-- The end of a handler run whose writes to the response `w0` gave `x`: the
response written, or the response as the panic found it. -/
def ProbeResult.served (o : OverrideState) (sent : List Outbound) (w0 : ResponseWriter)
    (x : Except String ResponseWriter) : ProbeResult :=
  match x with
  | Except.ok w => { override := o, w := w, sent := sent, panic := none }
  | Except.error v => { override := o, w := w0, sent := sent, panic := some v }

/-- The handler returned by `createProxyHandler targetUrl override`, run on
request `r` with a fresh response, clock readings `now`, `now2` inside `GetState`
and upstream `up`. -/
def createProxyHandler (targetUrl : String) (override : OverrideState) (now now2 : Time)
    (up : Upstream) (r : Request) : ProbeResult :=
  let st := OverrideState.GetState override now now2
  let w := ResponseWriter.fresh
  match st.mode with
  | OverrideMode.ForceSuccess =>
    ProbeResult.served st.record [] w
      (match ResponseWriter.WriteHeader w StatusOK with
       | Except.error v => Except.error v
       | Except.ok w1 =>
         Except.ok (ResponseWriter.Write w1
           ("Probe override to forced success, expires in " ++ formatDuration st.expiresIn ++
             "\n")))
  | OverrideMode.ForceFailure =>
    let retStr := "Probe override to forced failure, expires in " ++ formatDuration st.expiresIn
    ProbeResult.served st.record [] w (httpError w retStr StatusInternalServerError)
  | OverrideMode.Passthrough =>
    match up.newRequest targetUrl with
    | some err =>
      let resStr := "Failed to create health probe request to child process: " ++ err
      ProbeResult.served st.record [] w (httpError w resStr StatusInternalServerError)
    | none =>
      let res := clientDo up ⟨"GET", targetUrl, r.Header⟩
      match res.resp with
      | Except.error err =>
        let resStr := "Failed to send health probe request to child process: " ++ err
        ProbeResult.served st.record res.sent w (httpError w resStr StatusInternalServerError)
      | Except.ok (_, Except.error err) =>
        let resStr := "Failed to read health probe response from child process: " ++ err
        ProbeResult.served st.record res.sent w (httpError w resStr StatusInternalServerError)
      | Except.ok (status, Except.ok body) =>
        ProbeResult.served st.record res.sent w
          (match ResponseWriter.WriteHeader w status with
           | Except.error v => Except.error v
           | Except.ok w1 => Except.ok (ResponseWriter.Write w1 body))

/-! ## Override administration -/

/-- The two package-level records `healthzOverride` and `isReadyOverride`. -/
structure Overrides where
  healthzOverride : OverrideState
  isReadyOverride : OverrideState
  deriving DecidableEq

/-- The pointers `getOverrideState` can return. -/
inductive OverrideRef where
  | healthzOverride
  | isReadyOverride
  deriving DecidableEq

/-- Function `getOverrideState`; `none` is the nil pointer. -/
def getOverrideState (endpoint : String) : Option OverrideRef :=
  if endpoint = "healthz" then some OverrideRef.healthzOverride
  else if endpoint = "isReady" then some OverrideRef.isReadyOverride
  else none

/-- Read through a pointer. -/
def Overrides.get (g : Overrides) : OverrideRef → OverrideState
  | OverrideRef.healthzOverride => g.healthzOverride
  | OverrideRef.isReadyOverride => g.isReadyOverride

/-- Write through a pointer. -/
def Overrides.set (g : Overrides) (p : OverrideRef) (o : OverrideState) : Overrides :=
  match p with
  | OverrideRef.healthzOverride => { g with healthzOverride := o }
  | OverrideRef.isReadyOverride => { g with isReadyOverride := o }

/-- Function `parseOverrideMode`. -/
def parseOverrideMode (modeStr : String) : Except String OverrideMode :=
  if modeStr = "Success" then Except.ok OverrideMode.ForceSuccess
  else if modeStr = "Failure" then Except.ok OverrideMode.ForceFailure
  else if modeStr = "Passthrough" then Except.ok OverrideMode.Passthrough
  else Except.error "invalid OverrideMode value"

/-- The records and the response after one run of `setOverrideHandler`, and the
value of the panic that aborted it, if one did. -/
structure SetOverrideResult where
  overrides : Overrides
  w : ResponseWriter
  panic : Option String
  deriving DecidableEq

/-- The end of a run of `setOverrideHandler` whose writes to the response `w0`
gave `x`. -/
def SetOverrideResult.served (g : Overrides) (w0 : ResponseWriter)
    (x : Except String ResponseWriter) : SetOverrideResult :=
  match x with
  | Except.ok w => { overrides := g, w := w, panic := none }
  | Except.error v => { overrides := g, w := w0, panic := some v }

/-- Function `setOverrideHandler`, run with a fresh response; `now` is the clock
reading inside `SetOverride`.  The route `/setOverride/` only receives paths
that start with that ASCII prefix, which the slice expression removes. -/
def setOverrideHandler (g : Overrides) (now : Time) (r : Request) : SetOverrideResult :=
  let w := ResponseWriter.fresh
  let endpoint := r.Path.drop "/setOverride/".length
  match getOverrideState endpoint with
  | none =>
    SetOverrideResult.served g w
      (httpError w ("Invalid endpoint: \x27" ++ endpoint ++ "\x27") StatusNotFound)
  | some override =>
    let modeStr := queryGet r.Query "mode"
    match parseOverrideMode modeStr with
    | Except.error _ =>
      SetOverrideResult.served g w
        (httpError w ("Invalid mode parameter \x27" ++ modeStr ++ "\x27") StatusBadRequest)
    | Except.ok mode =>
      let g1 := g.set override (OverrideState.SetOverride (g.get override) now mode)
      SetOverrideResult.served g1 w
        (match ResponseWriter.WriteHeader w StatusOK with
         | Except.error v => Except.error v
         | Except.ok w1 =>
           Except.ok (ResponseWriter.Write w1
             ("Override for endpoint \x27" ++ endpoint ++ "\x27 set to \x27" ++ modeStr ++
               "\x27 for 30 minutes\n")))

end HealthProbeProxy


namespace Supervisor

/-! ## Process plumbing -/

/-- Where a piece of Go code ends up: it returns a value, the whole process
terminates with an exit status, or it waits forever. -/
inductive Exec (α : Type) where
  | ret (a : α)
  | exit (status : Int)
  | block
  deriving DecidableEq

/-- Sequencing of statements: what follows runs only if the first part
returns. -/
def Exec.bind {α β : Type} (x : Exec α) (k : α → Exec β) : Exec β :=
  match x with
  | Exec.ret a => k a
  | Exec.exit status => Exec.exit status
  | Exec.block => Exec.block

/-- Function `os.Exit`. -/
def osExit {α : Type} (code : Int) : Exec α := Exec.exit code

/-- Function `log.Fatalf`: prints the message, then calls `os.Exit(1)`. -/
def logFatalf : Exec Unit := osExit 1

/-- A `syscall.WaitStatus` (an unsigned 32-bit word), with the accessors of the
Go `syscall` package on Linux and Darwin. -/
abbrev WaitStatus := Nat

/-- Method `Exited`: `w&mask == exited`, with `mask = 0x7F`, `exited = 0`. -/
def WaitStatus.Exited (w : WaitStatus) : Bool := w &&& 0x7F == 0x00

/-- Method `Signaled`: `w&mask != stopped && w&mask != exited`, with
`stopped = 0x7F`. -/
def WaitStatus.Signaled (w : WaitStatus) : Bool := w &&& 0x7F != 0x7F && w &&& 0x7F != 0x00

/-- Method `CoreDump`: `w.Signaled() && w&core != 0`, with `core = 0x80`. -/
def WaitStatus.CoreDump (w : WaitStatus) : Bool := WaitStatus.Signaled w && w &&& 0x80 != 0

/-- Method `ExitStatus`: `-1` unless the process exited, else
`int(w>>shift) & 0xFF` with `shift = 8`. -/
def WaitStatus.ExitStatus (w : WaitStatus) : Int :=
  if !WaitStatus.Exited w then -1 else (((w >>> 8) &&& 0xFF : Nat) : Int)

/-- The wait status the kernel reports for a child that exited normally with
exit code `c`. -/
def WaitStatus.ofExitCode (c : Nat) : WaitStatus := (c &&& 0xFF) <<< 8

/-- The struct `completedProcess`; the resource usage, which nothing reads, is
left out. -/
structure completedProcess where
  Pid : Int
  WaitStatus : WaitStatus
  deriving DecidableEq

/-- Signals the entrypoint sends. -/
inductive Signal where
  | SIGTERM
  deriving DecidableEq

/-- One receive of the `select` in `waitForMainProcess`: a value from
`sigTermChan` or a value from `completedProcessChan`. -/
inductive Event where
  | sigTerm
  | completed (child : completedProcess)
  deriving DecidableEq

/-- What `waitForMainProcess` did on a sequence of events: the process it
returned (`none` when the events run out and the loop keeps waiting), the
signals it sent (pid and signal, in order), and the events it did not
consume. -/
structure WaitResult where
  child : Option completedProcess
  signals : List (Int × Signal)
  rest : List Event
  deriving DecidableEq

/-- Function `waitForMainProcess` for the process with pid `pid`, on the
sequence of values its `select` receives. -/
def waitForMainProcess (pid : Int) : List Event → WaitResult
  | [] => { child := none, signals := [], rest := [] }
  | Event.sigTerm :: es =>
    let r := waitForMainProcess pid es
    { r with signals := (pid, Signal.SIGTERM) :: r.signals }
  | Event.completed child :: es =>
    if child.Pid = pid then { child := some child, signals := [], rest := es }
    else waitForMainProcess pid es

/-- The operating system as the supervisor meets it: `os.Chdir` (`some err` on
failure), `cmd.Start` for a program and its arguments (the pid of the new child,
or an error), and the values later received by the wait loop. -/
structure OS where
  chdir : String → Option String
  start : String → List String → Except String Int
  events : List Event

/-- One run of the supervisor or of the entrypoint: how it ends, the commands
it started, and the signals it sent. -/
structure RunResult where
  outcome : Exec Int
  started : List (String × List String)
  signals : List (Int × Signal)
  deriving DecidableEq

/-- Function `RunChildProcess` of `supervisor_linux.go`. -/
def RunChildProcess (os : OS) (workingDir binaryName : String) (appArgs : List String) :
    RunResult :=
  let afterChdir : RunResult :=
    match os.start ("./" ++ binaryName) appArgs with
    | Except.error _ =>
      { outcome := Exec.bind logFatalf (fun _ => osExit 1), started := [], signals := [] }
    | Except.ok pid =>
      let r := waitForMainProcess pid os.events
      match r.child with
      | none =>
        { outcome := Exec.block, started := [("./" ++ binaryName, appArgs)], signals := r.signals }
      | some deadProcess =>
        let check : Exec Unit :=
          if WaitStatus.CoreDump deadProcess.WaitStatus = true then logFatalf
          else if WaitStatus.ExitStatus deadProcess.WaitStatus ≠ 0 then logFatalf
          else Exec.ret ()
        { outcome := Exec.bind check
            (fun _ => Exec.ret (WaitStatus.ExitStatus deadProcess.WaitStatus)),
          started := [("./" ++ binaryName, appArgs)],
          signals := r.signals }
  match os.chdir workingDir with
  | some _ =>
    { outcome := Exec.bind logFatalf (fun _ => afterChdir.outcome), started := [], signals := [] }
  | none => afterChdir

end Supervisor

namespace Entrypoint

open Supervisor

/-- Function `stringOrDefault`. -/
def stringOrDefault (value defaultValue : String) : String :=
  if value = "" then defaultValue else value

/-- The two statements `childExitCode := supervisor.RunChildProcess(...)` and
`os.Exit(childExitCode)`. -/
def runAndExit (r : RunResult) : RunResult :=
  { r with outcome := Exec.bind r.outcome (fun childExitCode => osExit childExitCode) }

/-- Function `main`, after `flag.Parse()`: `argWorkingDir` is the value of the
flag `working-dir` and `args` is `flag.Args()`. -/
def main (os : OS) (argWorkingDir : String) (args : List String) : RunResult :=
  match args with
  | [] => { outcome := osExit 2, started := [], signals := [] }
  | appName :: appArgs =>
    let workingDir := argWorkingDir
    if appName = "gameserver" then
      runAndExit (RunChildProcess os (stringOrDefault workingDir "/gameserver") "./Server" appArgs)
    else if appName = "botclient" then
      runAndExit (RunChildProcess os (stringOrDefault workingDir "/botclient") "./BotClient" appArgs)
    else if appName = "dotnet" then
      runAndExit (RunChildProcess os (stringOrDefault workingDir ".") "dotnet" appArgs)
    else
      { outcome := Exec.bind logFatalf (fun _ => osExit 2), started := [], signals := [] }

end Entrypoint


/-! ## Theorems: override records -/

namespace HealthProbeProxy

/-- C1 (counterexample): a record forced to success that expires at instant 100
and is read at instant 100 still reports `ForceSuccess`, with the record
untouched. -/
theorem GetState_at_expireAt_not_demoted :
    (100 : Time) ≥ (OverrideState.mk OverrideMode.ForceSuccess 100).expireAt ∧
    (OverrideState.GetState ⟨OverrideMode.ForceSuccess, 100⟩ 100 100).mode
      = OverrideMode.ForceSuccess ∧
    (OverrideState.GetState ⟨OverrideMode.ForceSuccess, 100⟩ 100 100).mode
      ≠ OverrideMode.Passthrough ∧
    (OverrideState.GetState ⟨OverrideMode.ForceSuccess, 100⟩ 100 100).record
      = ⟨OverrideMode.ForceSuccess, 100⟩ := by
  decide

/-- C1 (amended): for every record and every reading `now2 ≥ expireAt` of the
clock in the expiry test, `GetState` returns `Passthrough` when the reading is
strictly after `expireAt`, and the stored mode when it equals `expireAt`; the
record is left demoted to `Passthrough` (with the zero instant) exactly when it
held a forced mode and the reading is strictly after `expireAt`, and is left
unchanged otherwise. -/
theorem GetState_after_expireAt (o : OverrideState) (now now2 : Time)
    (h : now2 ≥ o.expireAt) :
    (o.GetState now now2).mode
      = (if now2 = o.expireAt then o.mode else OverrideMode.Passthrough) ∧
    (o.GetState now now2).record.mode = (o.GetState now now2).mode ∧
    (o.GetState now now2).record
      = (if now2 = o.expireAt ∨ o.mode = OverrideMode.Passthrough then o
         else ⟨OverrideMode.Passthrough, zeroTime⟩) := by
  obtain ⟨m, e⟩ := o
  simp only [ge_iff_le] at h
  rcases eq_or_lt_of_le h with heq | hlt
  · subst heq
    simp [OverrideState.GetState, Time.After]
  · have hne : now2 ≠ e := ne_of_gt hlt
    cases m <;> simp [OverrideState.GetState, Time.After, hlt, hne]

/-- C1 (witness): the amended statement at a record forced to failure with
`expireAt = 100`, read at instant 101. -/
theorem GetState_after_expireAt_witness :
    (101 : Time) ≥ (OverrideState.mk OverrideMode.ForceFailure 100).expireAt ∧
    (OverrideState.GetState ⟨OverrideMode.ForceFailure, 100⟩ 101 101).mode
      = OverrideMode.Passthrough :=
  ⟨by decide,
   (GetState_after_expireAt ⟨OverrideMode.ForceFailure, 100⟩ 101 101 (by decide)).1.trans
     (by decide)⟩

end HealthProbeProxy

/-! ## Theorems: override administration -/

namespace HealthProbeProxy

/-- The slice expression of `setOverrideHandler` on the path of `healthz`. -/
theorem slice_healthz :
    "/setOverride/healthz".drop "/setOverride/".length = "healthz" := by decide

/-- The slice expression of `setOverrideHandler` on the path of `isReady`. -/
theorem slice_isReady :
    "/setOverride/isReady".drop "/setOverride/".length = "isReady" := by decide

/-- C4: for `e` one of `healthz`, `isReady`, `m` one of `Success`, `Failure`,
`Passthrough`, any records, any headers and any clock reading `now`, the request
`/setOverride/e?mode=m` is answered with status 200; afterwards the record of
`e` holds the mode named by `m` and `expireAt = now + 30 minutes`, and the other
record is as before. -/
theorem setOverrideHandler_accepts (g : Overrides) (now : Time) (hdr : Header) (e m : String)
    (he : e = "healthz" ∨ e = "isReady")
    (hm : m = "Success" ∨ m = "Failure" ∨ m = "Passthrough") :
    (setOverrideHandler g now ⟨"/setOverride/" ++ e, [("mode", m)], hdr⟩).w.status = some 200 ∧
    (setOverrideHandler g now ⟨"/setOverride/" ++ e, [("mode", m)], hdr⟩).overrides =
      (if e = "healthz" then
        { healthzOverride :=
            ⟨if m = "Success" then OverrideMode.ForceSuccess
              else if m = "Failure" then OverrideMode.ForceFailure
              else OverrideMode.Passthrough,
             now + 30 * 60 * 1000000000⟩,
          isReadyOverride := g.isReadyOverride }
      else
        { healthzOverride := g.healthzOverride,
          isReadyOverride :=
            ⟨if m = "Success" then OverrideMode.ForceSuccess
              else if m = "Failure" then OverrideMode.ForceFailure
              else OverrideMode.Passthrough,
             now + 30 * 60 * 1000000000⟩ }) := by
  have hTTL : Time.Add now (30 * Minute) = now + 30 * 60 * 1000000000 := by
    simp only [Time.Add, Minute, Second]; ring
  rcases he with rfl | rfl <;> rcases hm with rfl | rfl | rfl <;>
    simp [setOverrideHandler, slice_healthz, slice_isReady, getOverrideState,
      queryGet, parseOverrideMode, Overrides.set, Overrides.get, OverrideState.SetOverride,
      SetOverrideResult.served, ResponseWriter.Write, ResponseWriter.WriteHeader,
      checkWriteHeaderCode, bodyAllowedForStatus, ResponseWriter.fresh, StatusOK, hTTL]

/-- C4 (witness): `/setOverride/isReady?mode=Failure` at clock reading 5 on the
initial records. -/
theorem setOverrideHandler_accepts_witness :
    (setOverrideHandler ⟨OverrideState.initial, OverrideState.initial⟩ 5
        ⟨"/setOverride/" ++ "isReady", [("mode", "Failure")], []⟩).w.status = some 200 ∧
    (setOverrideHandler ⟨OverrideState.initial, OverrideState.initial⟩ 5
        ⟨"/setOverride/" ++ "isReady", [("mode", "Failure")], []⟩).overrides =
      ⟨OverrideState.initial, ⟨OverrideMode.ForceFailure, 1800000000005⟩⟩ := by
  have h := setOverrideHandler_accepts ⟨OverrideState.initial, OverrideState.initial⟩ 5 []
    "isReady" "Failure" (Or.inr rfl) (Or.inr (Or.inl rfl))
  refine ⟨h.1, h.2.trans ?_⟩
  decide

/-- C5: a request whose endpoint suffix is neither `healthz` nor `isReady` is
answered 404 whatever its query; a request for a known endpoint whose `mode`
parameter is absent or is none of `Success`, `Failure`, `Passthrough` is
answered 400; in both cases both records are as before. -/
theorem setOverrideHandler_rejects (g : Overrides) (now : Time) (r : Request)
    (h : (r.Path.drop "/setOverride/".length ≠ "healthz" ∧
          r.Path.drop "/setOverride/".length ≠ "isReady") ∨
         (queryGet r.Query "mode" ≠ "Success" ∧ queryGet r.Query "mode" ≠ "Failure" ∧
          queryGet r.Query "mode" ≠ "Passthrough")) :
    (setOverrideHandler g now r).overrides = g ∧
    (setOverrideHandler g now r).w.status =
      some (if r.Path.drop "/setOverride/".length ≠ "healthz" ∧
               r.Path.drop "/setOverride/".length ≠ "isReady" then 404 else 400) := by
  by_cases h1 : r.Path.drop "/setOverride/".length = "healthz"
  · rcases h with h | ⟨ha, hb, hc⟩
    · exact absurd h1 h.1
    · simp [setOverrideHandler, getOverrideState, h1, parseOverrideMode, ha, hb, hc, httpError,
        SetOverrideResult.served, ResponseWriter.Write, ResponseWriter.WriteHeader,
        checkWriteHeaderCode, bodyAllowedForStatus, ResponseWriter.fresh, StatusBadRequest]
  · by_cases h2 : r.Path.drop "/setOverride/".length = "isReady"
    · rcases h with h | ⟨ha, hb, hc⟩
      · exact absurd h2 h.2
      · simp [setOverrideHandler, getOverrideState, h2, parseOverrideMode, ha, hb, hc,
          httpError, SetOverrideResult.served, ResponseWriter.Write, ResponseWriter.WriteHeader,
          checkWriteHeaderCode, bodyAllowedForStatus, ResponseWriter.fresh, StatusBadRequest]
    · simp [setOverrideHandler, getOverrideState, h1, h2, httpError, SetOverrideResult.served,
        ResponseWriter.Write, ResponseWriter.WriteHeader, checkWriteHeaderCode,
        bodyAllowedForStatus, ResponseWriter.fresh, StatusNotFound]

/-- C5 (witness): `/setOverride/healthz` without a `mode` parameter, on records
where `healthz` is forced to success. -/
theorem setOverrideHandler_rejects_witness :
    (setOverrideHandler ⟨⟨OverrideMode.ForceSuccess, 900⟩, OverrideState.initial⟩ 5
        ⟨"/setOverride/healthz", [], []⟩).overrides
      = ⟨⟨OverrideMode.ForceSuccess, 900⟩, OverrideState.initial⟩ ∧
    (setOverrideHandler ⟨⟨OverrideMode.ForceSuccess, 900⟩, OverrideState.initial⟩ 5
        ⟨"/setOverride/healthz", [], []⟩).w.status = some 400 := by
  have h := setOverrideHandler_rejects ⟨⟨OverrideMode.ForceSuccess, 900⟩, OverrideState.initial⟩ 5
    ⟨"/setOverride/healthz", [], []⟩ (Or.inr (by decide))
  exact ⟨h.1, h.2.trans (by decide)⟩

end HealthProbeProxy

/-! ## Theorems: probe handler -/

namespace HealthProbeProxy

/-- C6: when the record holds a forced mode and the clock reading of the expiry
test is not after `expireAt`, the probe handler answers 200 with the
forced-success text (mode `ForceSuccess`) or 500 with the forced-failure text
(mode `ForceFailure`), sends nothing upstream, leaves the record as it was, and
does the same for every other upstream behaviour. -/
theorem createProxyHandler_forced (targetUrl : String) (o : OverrideState) (now now2 : Time)
    (up : Upstream) (r : Request)
    (hmode : o.mode = OverrideMode.ForceSuccess ∨ o.mode = OverrideMode.ForceFailure)
    (hlive : now2 ≤ o.expireAt) :
    (createProxyHandler targetUrl o now now2 up r).w =
      (if o.mode = OverrideMode.ForceSuccess then
        ⟨some 200, "Probe override to forced success, expires in " ++
          formatDuration (Time.Sub o.expireAt now) ++ "\n"⟩
       else
        ⟨some 500, "Probe override to forced failure, expires in " ++
          formatDuration (Time.Sub o.expireAt now) ++ "\n"⟩) ∧
    (createProxyHandler targetUrl o now now2 up r).sent = [] ∧
    (createProxyHandler targetUrl o now now2 up r).override = o ∧
    ∀ up2 : Upstream,
      createProxyHandler targetUrl o now now2 up2 r = createProxyHandler targetUrl o now now2 up r := by
  obtain ⟨m, e⟩ := o
  have hnot : ¬ e < now2 := not_lt.mpr hlive
  rcases hmode with h | h <;> simp only at h <;> subst h <;>
    simp [createProxyHandler, OverrideState.GetState, Time.After, hnot, httpError,
      ProbeResult.served, ResponseWriter.Write, ResponseWriter.WriteHeader, checkWriteHeaderCode,
      bodyAllowedForStatus, ResponseWriter.fresh, StatusOK, StatusInternalServerError]

/-- C6 (witness): a record forced to failure until instant 1000, probed at
instant 400 while the upstream would answer `200 ok`. -/
theorem createProxyHandler_forced_witness :
    (createProxyHandler "http://127.0.0.1:8888/isReady" ⟨OverrideMode.ForceFailure, 1000⟩ 400 400
        (Upstream.response 200 "ok") ⟨"/isReady", [], []⟩).w.status = some 500 ∧
    (createProxyHandler "http://127.0.0.1:8888/isReady" ⟨OverrideMode.ForceFailure, 1000⟩ 400 400
        (Upstream.response 200 "ok") ⟨"/isReady", [], []⟩).sent = [] := by
  have h := createProxyHandler_forced "http://127.0.0.1:8888/isReady"
    ⟨OverrideMode.ForceFailure, 1000⟩ 400 400 (Upstream.response 200 "ok") ⟨"/isReady", [], []⟩
    (Or.inr rfl) (by decide)
  refine ⟨?_, h.2.1⟩
  rw [h.1]
  simp

/-- The mode `GetState` returns is `Passthrough` exactly when the record holds
`Passthrough` or the clock reading of the expiry test is after `expireAt`. -/
theorem GetState_mode_passthrough_iff (o : OverrideState) (now now2 : Time) :
    (o.GetState now now2).mode = OverrideMode.Passthrough ↔
      (o.mode = OverrideMode.Passthrough ∨ o.expireAt < now2) := by
  obtain ⟨m, e⟩ := o
  by_cases h : e < now2 <;> cases m <;> simp [OverrideState.GetState, Time.After, h]

/-- On a fresh response `WriteHeader` makes a code of 101 or of 200 to 999 the
status. -/
theorem WriteHeader_fresh_ok (s : Nat) (hcode : 200 ≤ s ∨ s = 101) (hmax : s ≤ 999) :
    ResponseWriter.WriteHeader ResponseWriter.fresh s = Except.ok ⟨some s, ""⟩ := by
  have h1 : ¬ (s < 100 ∨ s > 999) := by omega
  have h2 : ¬ (100 ≤ s ∧ s ≤ 199 ∧ s ≠ 101) := by omega
  simp [ResponseWriter.WriteHeader, ResponseWriter.fresh, checkWriteHeaderCode, h1, h2]

/-- After the header, `Write` puts a body on the response when the status allows
one; an empty body always goes through. -/
theorem Write_after_header (s : Nat) (b : String)
    (hbody : bodyAllowedForStatus s = true ∨ b = "") :
    ResponseWriter.Write ⟨some s, ""⟩ b = ⟨some s, b⟩ := by
  by_cases h : bodyAllowedForStatus s = true
  · simp [ResponseWriter.Write, h]
  · rcases hbody with hb | hb
    · exact absurd hb h
    · subst hb
      simp [ResponseWriter.Write, h]

/-- On a fresh response `http.Error` with code 500 gives status 500. -/
theorem httpError_fresh_500 (msg : String) :
    ∃ w : ResponseWriter,
      httpError ResponseWriter.fresh msg StatusInternalServerError = Except.ok w ∧
      w.status = some 500 := by
  simp [httpError, ResponseWriter.WriteHeader, ResponseWriter.Write, ResponseWriter.fresh,
    checkWriteHeaderCode, bodyAllowedForStatus, StatusInternalServerError]

/-- A first answer that is no redirect, or a redirect without `Location`, is what
`client.Do` returns, after that one request. -/
theorem clientDo_first_answer (up : Upstream) (req : Outbound) (s : Nat) (loc : String)
    (body : Except String String) (hsend : up.send 0 req = Reply.response s loc body)
    (hfinal : shouldRedirect s = false ∨ loc = "") :
    (clientDo up req).resp = Except.ok (s, body) ∧ (clientDo up req).sent = [req] := by
  unfold clientDo clientDoFrom
  rw [hsend]
  by_cases h1 : shouldRedirect s = false
  · simp [h1]
  · rcases hfinal with h | h
    · exact absurd h h1
    · simp [h]

/-- C7 (counterexample): with the effective mode `Passthrough`, an upstream that
answers the `GET` with status 99 and body `x` gets no response at all
(`WriteHeader` panics), and an upstream that answers the `GET` with status 302,
`Location: /other` and body `moved`, and the next request with `200 ok`, gets
`200 ok` relayed after two requests. -/
theorem createProxyHandler_relay_counterexample :
    (OverrideState.GetState OverrideState.initial 400 400).mode = OverrideMode.Passthrough ∧
    (Upstream.response 99 "x").send 0 ⟨"GET", "http://127.0.0.1:8888/isReady", []⟩
      = Reply.response 99 "" (Except.ok "x") ∧
    (createProxyHandler "http://127.0.0.1:8888/isReady" OverrideState.initial 400 400
        (Upstream.response 99 "x") ⟨"/isReady", [], []⟩).w = ⟨none, ""⟩ ∧
    (createProxyHandler "http://127.0.0.1:8888/isReady" OverrideState.initial 400 400
        (Upstream.response 99 "x") ⟨"/isReady", [], []⟩).panic
      = some "invalid WriteHeader code 99" ∧
    (createProxyHandler "http://127.0.0.1:8888/isReady" OverrideState.initial 400 400
        { newRequest := fun _ => none,
          send := fun n _ =>
            if n = 0 then Reply.response 302 "/other" (Except.ok "moved")
            else Reply.response 200 "" (Except.ok "ok"),
          resolve := fun _ loc => Except.ok ("http://127.0.0.1:8888" ++ loc),
          hopHeader := fun first _ _ => first.header }
        ⟨"/isReady", [], []⟩).w = ⟨some 200, "ok"⟩ ∧
    (createProxyHandler "http://127.0.0.1:8888/isReady" OverrideState.initial 400 400
        { newRequest := fun _ => none,
          send := fun n _ =>
            if n = 0 then Reply.response 302 "/other" (Except.ok "moved")
            else Reply.response 200 "" (Except.ok "ok"),
          resolve := fun _ loc => Except.ok ("http://127.0.0.1:8888" ++ loc),
          hopHeader := fun first _ _ => first.header }
        ⟨"/isReady", [], []⟩).sent
      = [⟨"GET", "http://127.0.0.1:8888/isReady", []⟩,
         ⟨"GET", "http://127.0.0.1:8888/other", []⟩] := by
  refine ⟨by decide, rfl, by decide, by decide, by decide, by decide⟩

/-- C7 (amended): let the effective mode, the one `GetState` returns, be
`Passthrough` (the record holds `Passthrough`, as it does initially, or its
forced mode is read after `expireAt`).  If the upstream answers the `GET` with
status `s` and body `b`, where `s` is 101 or lies in 200..999, the answer is no
redirect (301, 302, 303, 307, 308) that carries a `Location`, and `b` is empty
when `s` allows no body (101, 204, 304), the response has exactly status `s` and
body `b`, after that one `GET` with the incoming headers.  More generally the
response with which `client.Do` returns, after following redirects, is relayed
under the same conditions on `s` and `b`.  If creating the request fails, if
`client.Do` returns an error, or if reading the body fails, the response has
status 500. -/
theorem createProxyHandler_passthrough (targetUrl : String) (o : OverrideState)
    (now now2 : Time) (up : Upstream) (r : Request)
    (heff : (o.GetState now now2).mode = OverrideMode.Passthrough) :
    (∀ (s : Nat) (loc b : String),
      up.newRequest targetUrl = none →
      up.send 0 ⟨"GET", targetUrl, r.Header⟩ = Reply.response s loc (Except.ok b) →
      (shouldRedirect s = false ∨ loc = "") →
      (200 ≤ s ∨ s = 101) → s ≤ 999 → (bodyAllowedForStatus s = true ∨ b = "") →
      (createProxyHandler targetUrl o now now2 up r).w = ⟨some s, b⟩ ∧
      (createProxyHandler targetUrl o now now2 up r).sent = [⟨"GET", targetUrl, r.Header⟩] ∧
      (createProxyHandler targetUrl o now now2 up r).panic = none) ∧
    (∀ (s : Nat) (b : String),
      up.newRequest targetUrl = none →
      (clientDo up ⟨"GET", targetUrl, r.Header⟩).resp = Except.ok (s, Except.ok b) →
      (200 ≤ s ∨ s = 101) → s ≤ 999 → (bodyAllowedForStatus s = true ∨ b = "") →
      (createProxyHandler targetUrl o now now2 up r).w = ⟨some s, b⟩ ∧
      (createProxyHandler targetUrl o now now2 up r).sent
        = (clientDo up ⟨"GET", targetUrl, r.Header⟩).sent ∧
      (createProxyHandler targetUrl o now now2 up r).panic = none) ∧
    (∀ err : String,
      up.newRequest targetUrl = some err →
      (createProxyHandler targetUrl o now now2 up r).w.status = some 500) ∧
    (∀ err : String,
      up.newRequest targetUrl = none →
      (clientDo up ⟨"GET", targetUrl, r.Header⟩).resp = Except.error err →
      (createProxyHandler targetUrl o now now2 up r).w.status = some 500) ∧
    (∀ (s : Nat) (err : String),
      up.newRequest targetUrl = none →
      (clientDo up ⟨"GET", targetUrl, r.Header⟩).resp = Except.ok (s, Except.error err) →
      (createProxyHandler targetUrl o now now2 up r).w.status = some 500) := by
  have hrelay : ∀ (s : Nat) (b : String),
      up.newRequest targetUrl = none →
      (clientDo up ⟨"GET", targetUrl, r.Header⟩).resp = Except.ok (s, Except.ok b) →
      (200 ≤ s ∨ s = 101) → s ≤ 999 → (bodyAllowedForStatus s = true ∨ b = "") →
      (createProxyHandler targetUrl o now now2 up r).w = ⟨some s, b⟩ ∧
      (createProxyHandler targetUrl o now now2 up r).sent
        = (clientDo up ⟨"GET", targetUrl, r.Header⟩).sent ∧
      (createProxyHandler targetUrl o now now2 up r).panic = none := by
    intro s b hnew hdo hcode hmax hbody
    simp [createProxyHandler, heff, hnew, hdo, WriteHeader_fresh_ok s hcode hmax,
      Write_after_header s b hbody, ProbeResult.served]
  refine ⟨?_, hrelay, ?_, ?_, ?_⟩
  · intro s loc b hnew hsend hfinal hcode hmax hbody
    obtain ⟨hresp, hsent⟩ := clientDo_first_answer up _ s loc _ hsend hfinal
    obtain ⟨hw, hs, hp⟩ := hrelay s b hnew hresp hcode hmax hbody
    exact ⟨hw, hs.trans hsent, hp⟩
  · intro err hnew
    obtain ⟨w, hw, hst⟩ := httpError_fresh_500
      ("Failed to create health probe request to child process: " ++ err)
    simp only [createProxyHandler, heff, hnew, hw, ProbeResult.served]
    exact hst
  · intro err hnew hdo
    obtain ⟨w, hw, hst⟩ := httpError_fresh_500
      ("Failed to send health probe request to child process: " ++ err)
    simp only [createProxyHandler, heff, hnew, hdo, hw, ProbeResult.served]
    exact hst
  · intro s err hnew hdo
    obtain ⟨w, hw, hst⟩ := httpError_fresh_500
      ("Failed to read health probe response from child process: " ++ err)
    simp only [createProxyHandler, heff, hnew, hdo, hw, ProbeResult.served]
    exact hst

/-- C7 (witness): an override that expired at instant 300, probed at instant
400, upstream answering `503 down`. -/
theorem createProxyHandler_passthrough_witness :
    (OverrideState.GetState ⟨OverrideMode.ForceSuccess, 300⟩ 400 400).mode
      = OverrideMode.Passthrough ∧
    (createProxyHandler "http://127.0.0.1:8888/isReady" ⟨OverrideMode.ForceSuccess, 300⟩ 400 400
        (Upstream.response 503 "down") ⟨"/isReady", [], []⟩).w = ⟨some 503, "down"⟩ :=
  ⟨by decide,
   ((createProxyHandler_passthrough "http://127.0.0.1:8888/isReady"
      ⟨OverrideMode.ForceSuccess, 300⟩ 400 400 (Upstream.response 503 "down")
      ⟨"/isReady", [], []⟩ (by decide)).1 503 "" "down" rfl rfl (Or.inl rfl) (Or.inl (by decide))
      (by decide) (Or.inl rfl)).1⟩

end HealthProbeProxy

/-! ## Theorems: supervisor -/

namespace Supervisor

/-- A signalled status is not an exited one. -/
theorem WaitStatus.exited_false_of_signaled (w : WaitStatus)
    (h : WaitStatus.Signaled w = true) : WaitStatus.Exited w = false := by
  simp only [WaitStatus.Signaled, Bool.and_eq_true, bne_iff_ne, ne_eq] at h
  simp only [WaitStatus.Exited, beq_eq_false_iff_ne, ne_eq]
  exact h.2

/-- A status that is not an exited one has exit status `-1`. -/
theorem WaitStatus.exitStatus_of_not_exited (w : WaitStatus)
    (h : WaitStatus.Exited w = false) : WaitStatus.ExitStatus w = -1 := by
  simp [WaitStatus.ExitStatus, h]

/-- C3: once the main child has been started and its completion reaches the
wait loop with wait status `w`, `RunChildProcess` returns 0 when `w` is a normal
exit with exit code 0 and terminates the process with status 1 for every other
`w`; a status that is signalled or a core dump is never a normal exit, so a
nonzero exit, a death by signal and a core dump all end in status 1. -/
theorem RunChildProcess_success_only_for_exit_zero (os : OS) (workingDir binaryName : String)
    (appArgs : List String) (pid : Int) (deadProcess : completedProcess)
    (hchdir : os.chdir workingDir = none)
    (hstart : os.start ("./" ++ binaryName) appArgs = Except.ok pid)
    (hwait : (waitForMainProcess pid os.events).child = some deadProcess) :
    (RunChildProcess os workingDir binaryName appArgs).outcome =
      (if WaitStatus.Exited deadProcess.WaitStatus = true ∧
          WaitStatus.ExitStatus deadProcess.WaitStatus = 0
        then Exec.ret 0 else Exec.exit 1) ∧
    (WaitStatus.Signaled deadProcess.WaitStatus = true →
      WaitStatus.Exited deadProcess.WaitStatus = false) ∧
    (WaitStatus.CoreDump deadProcess.WaitStatus = true →
      WaitStatus.Exited deadProcess.WaitStatus = false) := by
  refine ⟨?_, WaitStatus.exited_false_of_signaled _, fun hc => ?_⟩
  · simp only [RunChildProcess, hchdir, hstart, hwait]
    by_cases hcore : WaitStatus.CoreDump deadProcess.WaitStatus = true
    · have hsig : WaitStatus.Signaled deadProcess.WaitStatus = true := by
        simp only [WaitStatus.CoreDump, Bool.and_eq_true] at hcore
        exact hcore.1
      have hex := WaitStatus.exited_false_of_signaled _ hsig
      simp [hcore, hex, Exec.bind, logFatalf, osExit]
    · by_cases hz : WaitStatus.ExitStatus deadProcess.WaitStatus = 0
      · have hex : WaitStatus.Exited deadProcess.WaitStatus = true := by
          by_contra hne
          have hneg := WaitStatus.exitStatus_of_not_exited _ (by simpa using hne)
          rw [hz] at hneg
          exact absurd hneg (by decide)
        simp [hcore, hz, hex, Exec.bind]
      · simp [hcore, hz, Exec.bind, logFatalf, osExit]
  · apply WaitStatus.exited_false_of_signaled
    simp only [WaitStatus.CoreDump, Bool.and_eq_true] at hc
    exact hc.1

/-- C3 (witness): the main child, pid 42, is killed by signal 11 with a core
dump (wait status `0x8B`); the supervisor ends the process with status 1. -/
theorem RunChildProcess_success_only_for_exit_zero_witness :
    (RunChildProcess ⟨fun _ => none, fun _ _ => Except.ok 42, [Event.completed ⟨42, 0x8B⟩]⟩
      "/gameserver" "./Server" []).outcome = Exec.exit 1 :=
  (RunChildProcess_success_only_for_exit_zero
    ⟨fun _ => none, fun _ _ => Except.ok 42, [Event.completed ⟨42, 0x8B⟩]⟩
    "/gameserver" "./Server" [] 42 ⟨42, 0x8B⟩ rfl rfl (by decide)).1.trans (by decide)

/-- C9: if some completed process in the sequence has the main pid `p`, the
sequence splits as `pre`, one completed process `c` with pid `p`, `post`, where
no completed process of `pre` has pid `p`; `waitForMainProcess` returns `c`, has
sent one `SIGTERM` to `p` for each `SIGTERM` event of `pre` and nothing else, and
leaves exactly `post` unconsumed. -/
theorem waitForMainProcess_returns_first_match (p : Int) (events : List Event)
    (h : ∃ c : completedProcess, Event.completed c ∈ events ∧ c.Pid = p) :
    ∃ (pre : List Event) (c : completedProcess) (post : List Event),
      events = pre ++ Event.completed c :: post ∧
      c.Pid = p ∧
      (∀ d : completedProcess, Event.completed d ∈ pre → d.Pid ≠ p) ∧
      waitForMainProcess p events =
        { child := some c,
          signals := List.replicate (pre.count Event.sigTerm) (p, Signal.SIGTERM),
          rest := post } := by
  induction events with
  | nil =>
    obtain ⟨c, hc, _⟩ := h
    simp at hc
  | cons ev es ih =>
    cases ev with
    | sigTerm =>
      have h2 : ∃ c : completedProcess, Event.completed c ∈ es ∧ c.Pid = p := by
        obtain ⟨c, hc, hp⟩ := h
        simp only [List.mem_cons] at hc
        rcases hc with hc | hc
        · cases hc
        · exact ⟨c, hc, hp⟩
      obtain ⟨pre, c, post, hsplit, hpid, hpre, hres⟩ := ih h2
      refine ⟨Event.sigTerm :: pre, c, post, by simp [hsplit], hpid, ?_, ?_⟩
      · intro d hd
        simp only [List.mem_cons] at hd
        rcases hd with hd | hd
        · cases hd
        · exact hpre d hd
      · simp [waitForMainProcess, hres, List.replicate_succ]
    | completed child =>
      by_cases hpid : child.Pid = p
      · refine ⟨[], child, es, by simp, hpid, ?_, ?_⟩
        · intro d hd
          simp at hd
        · simp [waitForMainProcess, hpid]
      · have h2 : ∃ c : completedProcess, Event.completed c ∈ es ∧ c.Pid = p := by
          obtain ⟨c, hc, hp⟩ := h
          simp only [List.mem_cons] at hc
          rcases hc with hc | hc
          · injection hc with hc
            subst hc
            exact absurd hp hpid
          · exact ⟨c, hc, hp⟩
        obtain ⟨pre, c, post, hsplit, hcp, hpre, hres⟩ := ih h2
        refine ⟨Event.completed child :: pre, c, post, by simp [hsplit], hcp, ?_, ?_⟩
        · intro d hd
          simp only [List.mem_cons] at hd
          rcases hd with hd | hd
          · injection hd with hd
            subst hd
            exact hpid
          · exact hpre d hd
        · simp [waitForMainProcess, hpid, hres]

/-- C9 (witness): main pid 42; a `SIGTERM`, an orphan with pid 7, a second
`SIGTERM`, then the main child, then one more `SIGTERM`. -/
theorem waitForMainProcess_returns_first_match_witness :
    ∃ (pre : List Event) (c : completedProcess) (post : List Event),
      [Event.sigTerm, Event.completed ⟨7, 0⟩, Event.sigTerm, Event.completed ⟨42, 0⟩,
          Event.sigTerm] = pre ++ Event.completed c :: post ∧
      c.Pid = 42 ∧
      (∀ d : completedProcess, Event.completed d ∈ pre → d.Pid ≠ 42) ∧
      waitForMainProcess 42
          [Event.sigTerm, Event.completed ⟨7, 0⟩, Event.sigTerm, Event.completed ⟨42, 0⟩,
            Event.sigTerm] =
        { child := some c,
          signals := List.replicate (pre.count Event.sigTerm) (42, Signal.SIGTERM),
          rest := post } :=
  waitForMainProcess_returns_first_match 42
    [Event.sigTerm, Event.completed ⟨7, 0⟩, Event.sigTerm, Event.completed ⟨42, 0⟩, Event.sigTerm]
    ⟨⟨42, 0⟩, by decide, rfl⟩

end Supervisor

namespace Entrypoint

open Supervisor

/-- C2 (the code at the failing input): the main child, pid 42, exits normally
with exit code 7 (wait status `0x0700`); the entrypoint started as `gameserver`
ends with exit status 1.  With exit code 0 it ends with exit status 0. -/
theorem main_child_exit_code_7_gives_1 :
    WaitStatus.ofExitCode 7 = 0x0700 ∧
    WaitStatus.Exited (WaitStatus.ofExitCode 7) = true ∧
    WaitStatus.ExitStatus (WaitStatus.ofExitCode 7) = 7 ∧
    (main ⟨fun _ => none, fun _ _ => Except.ok 42,
        [Event.completed ⟨42, WaitStatus.ofExitCode 7⟩]⟩ "" ["gameserver"]).outcome
      = Exec.exit 1 ∧
    (main ⟨fun _ => none, fun _ _ => Except.ok 42,
        [Event.completed ⟨42, WaitStatus.ofExitCode 0⟩]⟩ "" ["gameserver"]).outcome
      = Exec.exit 0 := by
  decide

/-- C8 (the code at the failing input): with an app name outside `gameserver`,
`botclient`, `dotnet` (here `foo`) the entrypoint starts no child and ends with
exit status 1, for every operating system, working directory and further
arguments; with no app name it ends with exit status 2. -/
theorem main_invalid_app_name_gives_1 (os : OS) (argWorkingDir : String) (rest : List String) :
    (main os argWorkingDir ("foo" :: rest)).outcome = Exec.exit 1 ∧
    (main os argWorkingDir ("foo" :: rest)).started = [] ∧
    (main os argWorkingDir []).outcome = Exec.exit 2 ∧
    (main os argWorkingDir []).started = [] := by
  simp [main, Exec.bind, logFatalf, osExit]

end Entrypoint

/-! ## Theorems: `formatDuration` -/

namespace HealthProbeProxy

/-- Rounding to an integer stays below an integer upper bound. -/
theorem roundHalfEven_le {q : ℚ} {n : ℤ} (h : q ≤ n) : roundHalfEven q ≤ n := by
  have hf : ⌊q⌋ ≤ n := by
    have := Int.floor_le q
    exact_mod_cast (Int.floor_le q).trans h
  rcases eq_or_lt_of_le hf with heq | hlt
  · have hq : q = n := le_antisymm h (by rw [← heq]; exact Int.floor_le q)
    simp [roundHalfEven, hq]
  · have h1 : ⌊q⌋ + 1 ≤ n := hlt
    unfold roundHalfEven
    simp only
    split_ifs <;> omega

/-- Rounding to an integer stays above an integer lower bound. -/
theorem le_roundHalfEven {q : ℚ} {n : ℤ} (h : (n : ℚ) ≤ q) : n ≤ roundHalfEven q := by
  have hf : n ≤ ⌊q⌋ := Int.le_floor.mpr h
  unfold roundHalfEven
  simp only
  split_ifs <;> omega


/-- Below `2^m` in magnitude the spacing of `float64` values divides `2^(-g)`
when `g + m = 52`: the rounding is a rounding to a multiple of `2^(-g-k)`. -/
theorem float64Round_scale {x : ℚ} (g m : ℕ) (hgm : g + m = 52) (hx0 : x ≠ 0)
    (hx : |x| < 2 ^ m) :
    ∃ k : ℕ, float64Round x =
      (roundHalfEven (x * ((2 : ℚ) ^ g * (2 : ℚ) ^ k)) : ℚ) / ((2 : ℚ) ^ g * (2 : ℚ) ^ k) := by
  have hpos : 0 < |x| := abs_pos.mpr hx0
  have he : Int.log 2 |x| < m := by
    rw [← Int.lt_zpow_iff_log_lt (by norm_num) hpos]
    exact_mod_cast hx
  obtain ⟨k, hk⟩ := Int.eq_ofNat_of_zero_le (show 0 ≤ (m : ℤ) - Int.log 2 |x| by omega)
  refine ⟨k, ?_⟩
  have h1 : (52 : ℤ) - Int.log 2 |x| = ((g + k : ℕ) : ℤ) := by push_cast; omega
  have h2 : Int.log 2 |x| - 52 = -((g + k : ℕ) : ℤ) := by push_cast; omega
  simp only [float64Round, hx0, if_false]
  rw [h1, h2, zpow_neg, zpow_natCast, pow_add, div_eq_mul_inv]

/-- Rounding does not cross a multiple of `2^(-g)` above the value. -/
theorem float64Round_le {x b : ℚ} (g m : ℕ) (hgm : g + m = 52) (B : ℤ) (hb : b = B / 2 ^ g)
    (hxb : x ≤ b) (hx : |x| < 2 ^ m) : float64Round x ≤ b := by
  by_cases hx0 : x = 0
  · simp only [float64Round, hx0, if_true]
    rw [hx0] at hxb; exact hxb
  · obtain ⟨k, hk⟩ := float64Round_scale g m hgm hx0 hx
    rw [hk]
    have hpos : (0 : ℚ) < 2 ^ g * 2 ^ k := by positivity
    rw [div_le_iff₀ hpos]
    have hB : b * (2 ^ g * 2 ^ k) = ((B * 2 ^ k : ℤ) : ℚ) := by
      rw [hb]; push_cast; field_simp; ring
    rw [hB]
    have : x * (2 ^ g * 2 ^ k) ≤ ((B * 2 ^ k : ℤ) : ℚ) := by
      rw [← hB]; exact mul_le_mul_of_nonneg_right hxb hpos.le
    exact_mod_cast roundHalfEven_le this

/-- Rounding does not cross a multiple of `2^(-g)` below the value. -/
theorem le_float64Round {x a : ℚ} (g m : ℕ) (hgm : g + m = 52) (A : ℤ) (ha : a = A / 2 ^ g)
    (hax : a ≤ x) (hx : |x| < 2 ^ m) : a ≤ float64Round x := by
  by_cases hx0 : x = 0
  · simp only [float64Round, hx0, if_true]
    rw [hx0] at hax; exact hax
  · obtain ⟨k, hk⟩ := float64Round_scale g m hgm hx0 hx
    rw [hk]
    have hpos : (0 : ℚ) < 2 ^ g * 2 ^ k := by positivity
    rw [le_div_iff₀ hpos]
    have hA : a * (2 ^ g * 2 ^ k) = ((A * 2 ^ k : ℤ) : ℚ) := by
      rw [ha]; push_cast; field_simp; ring
    rw [hA]
    have : ((A * 2 ^ k : ℤ) : ℚ) ≤ x * (2 ^ g * 2 ^ k) := by
      rw [← hA]; exact mul_le_mul_of_nonneg_right hax hpos.le
    exact_mod_cast le_roundHalfEven this

/-- Integers below `2^52` in magnitude are converted exactly. -/
theorem float64OfInt_exact (n : ℤ) (hn : |n| < 2 ^ 52) : float64OfInt n = n := by
  have hx : |(n : ℚ)| < 2 ^ 52 := by exact_mod_cast hn
  apply le_antisymm
  · exact float64Round_le 0 52 rfl n (by simp) le_rfl hx
  · exact le_float64Round 0 52 rfl n (by simp) le_rfl hx

/-- The integer part of `float64(n) + float64(r) / D` computed in `float64` is `n`,
for `0 ≤ n < 2^15` and `0 ≤ r < D ≤ 2^36`. -/
theorem truncToInt_sum (n r D : ℤ) (hn : 0 ≤ n) (hn2 : n < 2 ^ 15) (hr : 0 ≤ r) (hrD : r < D)
    (hD : D ≤ 2 ^ 36) :
    truncToInt (float64Round (float64OfInt n + float64Round (float64OfInt r / (D : ℚ)))) = n := by
  have hDpos : (0 : ℚ) < D := by exact_mod_cast (lt_of_le_of_lt hr hrD)
  rw [float64OfInt_exact n (by rw [abs_of_nonneg hn]; omega),
    float64OfInt_exact r (by rw [abs_of_nonneg hr]; omega)]
  have hq0 : (0 : ℚ) ≤ (r : ℚ) / D := div_nonneg (by exact_mod_cast hr) hDpos.le
  have hq1 : (r : ℚ) / D ≤ ((2 ^ 36 - 1 : ℤ) : ℚ) / 2 ^ 36 := by
    rw [div_le_div_iff₀ hDpos (by positivity)]
    have h1 : r * 2 ^ 36 ≤ (2 ^ 36 - 1) * D := by nlinarith
    exact_mod_cast h1
  have hqabs : |(r : ℚ) / D| < 2 ^ 16 := by
    rw [abs_of_nonneg hq0]
    refine lt_of_le_of_lt hq1 ?_
    norm_num
  have hf0 : (0 : ℚ) ≤ float64Round ((r : ℚ) / D) :=
    le_float64Round 36 16 rfl 0 (by simp) hq0 hqabs
  have hf1 : float64Round ((r : ℚ) / D) ≤ ((2 ^ 36 - 1 : ℤ) : ℚ) / 2 ^ 36 :=
    float64Round_le 36 16 rfl (2 ^ 36 - 1) rfl hq1 hqabs
  set q := float64Round ((r : ℚ) / D) with hqdef
  have hnq : (0 : ℚ) ≤ n := by exact_mod_cast hn
  have hn15 : (n : ℚ) < 2 ^ 15 := by exact_mod_cast hn2
  have hsabs : |(n : ℚ) + q| < 2 ^ 16 := by
    rw [abs_of_nonneg (by linarith)]
    have : ((2 ^ 36 - 1 : ℤ) : ℚ) / 2 ^ 36 < 1 := by norm_num
    norm_num at hn15 ⊢
    linarith
  have hs0 : (n : ℚ) ≤ float64Round ((n : ℚ) + q) :=
    le_float64Round 36 16 rfl (n * 2 ^ 36) (by push_cast; ring) (by linarith) hsabs
  have hs1 : float64Round ((n : ℚ) + q) ≤ (n : ℚ) + ((2 ^ 36 - 1 : ℤ) : ℚ) / 2 ^ 36 :=
    float64Round_le 36 16 rfl (n * 2 ^ 36 + (2 ^ 36 - 1)) (by push_cast; ring)
      (by linarith) hsabs
  have hlt : float64Round ((n : ℚ) + q) < (n : ℚ) + 1 := by
    have : ((2 ^ 36 - 1 : ℤ) : ℚ) / 2 ^ 36 < 1 := by norm_num
    linarith
  have hnonneg : (0 : ℚ) ≤ float64Round ((n : ℚ) + q) := le_trans hnq hs0
  simp only [truncToInt, hnonneg, if_true]
  rw [Int.floor_eq_iff]
  exact ⟨hs0, hlt⟩


/-- Both truncations inside `formatDuration`, on 0 to 30 minutes, are the floor
quotients. -/
theorem truncToInt_minutes_seconds (d : ℤ) (h0 : 0 ≤ d) (h1 : d ≤ 1800000000000) :
    truncToInt (Duration.Minutes d) = d / 60000000000 ∧
    (truncToInt (Duration.Seconds d)).tmod 60 = d / 1000000000 % 60 := by
  have hM : Minute = (60000000000 : ℤ) := by decide
  have hS : Second = (1000000000 : ℤ) := by decide
  have hcM : ((60000000000 : ℤ) : ℚ) = 60000000000 := by norm_num
  have hcS : ((1000000000 : ℤ) : ℚ) = 1000000000 := by norm_num
  constructor
  · have h := truncToInt_sum (d / 60000000000) (d % 60000000000) 60000000000
      (by omega) (by omega) (by omega) (by omega) (by norm_num)
    rw [hcM] at h
    rw [Duration.Minutes, hM, Int.tdiv_eq_ediv h0 (by norm_num),
      Int.tmod_eq_emod h0 (by norm_num)]
    exact h
  · have h := truncToInt_sum (d / 1000000000) (d % 1000000000) 1000000000
      (by omega) (by omega) (by omega) (by omega) (by norm_num)
    rw [hcS] at h
    rw [Duration.Seconds, hS, Int.tdiv_eq_ediv h0 (by norm_num),
      Int.tmod_eq_emod h0 (by norm_num), h]
    exact Int.tmod_eq_emod (by omega) (by norm_num)

/-- Arithmetic of the minute and second fields. -/
theorem minutes_seconds_arith (d : ℤ) :
    0 ≤ d / 1000000000 % 60 ∧ d / 1000000000 % 60 ≤ 59 ∧
    60 * (d / 60000000000) + d / 1000000000 % 60 = d / 1000000000 := by
  omega

/-- C10: for a duration `d` of 0 to 30 minutes, with `m = d / Minute` and
`s = d / Second % 60` (floor division), `formatDuration d` is `<m>m <s>s` when
`m > 0` and `<s>s` otherwise, where `0 ≤ s ≤ 59` and `60 * m + s` is the number
of whole seconds of `d`. -/
theorem formatDuration_whole_seconds (d : Duration) (h0 : 0 ≤ d) (h1 : d ≤ 30 * Minute) :
    formatDuration d =
      (if d / Minute > 0 then
        toString (d / Minute) ++ "m " ++ toString (d / Second % 60) ++ "s"
       else toString (d / Second % 60) ++ "s") ∧
    0 ≤ d / Second % 60 ∧ d / Second % 60 ≤ 59 ∧
    60 * (d / Minute) + d / Second % 60 = d / Second := by
  have hM : Minute = (60000000000 : ℤ) := by decide
  have hS : Second = (1000000000 : ℤ) := by decide
  have h1 : d ≤ (1800000000000 : ℤ) := by
    rw [hM] at h1
    exact h1
  obtain ⟨hmin, hsec⟩ := truncToInt_minutes_seconds d h0 h1
  refine ⟨?_, ?_⟩
  · simp only [formatDuration, hmin, hsec, hM, hS]
  · rw [hM, hS]
    exact minutes_seconds_arith d

/-- C10 (witness): one nanosecond short of 30 minutes is rendered `29m 59s`. -/
theorem formatDuration_whole_seconds_witness :
    formatDuration 1799999999999 = "29m 59s" :=
  (formatDuration_whole_seconds 1799999999999 (by decide) (by decide)).1.trans (by decide)

end HealthProbeProxy
